import Mathlib

/-!
Shallow embedding of the hierarchical state-machine engine
(`stateMachine.c` / `stateMachine.h`, misje/stateMachine).

Modelling conventions:
* The immutable state graph is an arena: states are addressed by `Nat`
  indices and the graph is a total function `Nat → state`; a NULL state
  pointer is `Option.none` at the use site.  Every non-null pointer is
  therefore valid, matching the C code's assumption that the user-built
  graph contains only valid pointers.
* `numTransitions` together with the `transitions` array is modelled as a
  Lean list; `numTransitions == 0` becomes `transitions.length = 0`.
* Opaque callback pointers (`action`, `entryAction`, `exitAction`) are
  modelled as `Option Nat` labels (NULL = `none`); a call to a callback is
  recorded in an explicit trace (`CB`) instead of performing side effects.
  Guards are pure by the documented contract of the callback type, so a
  guard is embedded as an actual Lean predicate `Option (Nat → event → Bool)`
  receiving the transition's condition value and the event.
* The two unbounded loops of `stateM_handleEvent` (the parent-chain
  bubbling loop and the entry-state descent loop) take explicit fuel; a
  result of `none` models the non-termination the C code exhibits on a
  cyclic parent or entry-state chain.  All theorems hold for every fuel
  value for which the call yields a result.
-/

namespace StateMachine

/-- `struct event`: a user-defined type discriminant plus an opaque payload
(the `void *data` pointer is modelled as an opaque `Nat` identity). -/
structure event where
  type : Int
  data : Nat
  deriving DecidableEq, Repr

/-- `struct transition` from `stateMachine.h`: triggering event type, opaque
condition value handed to the guard, optional guard predicate, optional
action callback (modelled as an opaque label), and the next-state pointer
(`none` models NULL, which the engine treats as a configuration error). -/
structure transition where
  eventType : Int
  condition : Nat
  guard : Option (Nat → event → Bool)
  action : Option Nat
  nextState : Option Nat

/-- `struct state`: optional parent back-reference, optional entry-state
reference, the ordered transition array, opaque state data, and optional
entry/exit action callbacks (opaque labels, `none` = NULL). -/
structure state where
  parentState : Option Nat
  entryState : Option Nat
  transitions : List transition
  data : Nat
  entryAction : Option Nat
  exitAction : Option Nat

/-- The immutable state graph: an arena of states addressed by index. -/
abbrev Graph := Nat → state

/-- `struct stateMachine`: the three mutable state-pointer fields. -/
structure stateMachine where
  currentState : Option Nat
  previousState : Option Nat
  errorState : Option Nat
  deriving DecidableEq, Repr

/-- `enum stateM_handleEventRetVals`. -/
inductive RetVal where
  | errArg
  | errorStateReached
  | stateChanged
  | stateLoopSelf
  | noStateChange
  | finalStateReached
  deriving DecidableEq, Repr

/-- One recorded callback invocation.  `exitA s` / `entryA s` record that
state `s`'s exit/entry action was called (with `(g s).data` and the event
of the dispatch); `transA a` records that the transition action labelled
`a` was called (with the old state's data, the event and the landing
state's data). -/
inductive CB where
  | exitA (s : Nat)
  | transA (a : Nat)
  | entryA (s : Nat)
  deriving DecidableEq, Repr

/-- `stateM_init`: on a present machine, set `currentState` to the initial
state, reset `previousState` to NULL and set `errorState`; call no
callback (the returned trace is always empty). -/
def stateM_init (m : Option stateMachine) (initialState errorState : Option Nat) :
    Option stateMachine × List CB :=
  match m with
  | none => (none, [])
  | some _ => (some ⟨initialState, none, errorState⟩, [])

/-- The conditional entry-action call at the end of `goToErrorState`:
`if (fsm->currentState && fsm->currentState->entryAction)
   fsm->currentState->entryAction(...)`. -/
def errEntryTrace (g : Graph) (err : Option Nat) : List CB :=
  match err with
  | none => []
  | some s =>
    match (g s).entryAction with
    | none => []
    | some _ => [CB.entryA s]

/-- `goToErrorState`: record the old current state as previous, make the
error state current, and invoke its entry action if the error state and
its entry action are present. -/
def goToErrorState (g : Graph) (fsm : stateMachine) (_e : event) :
    stateMachine × List CB :=
  (⟨fsm.errorState, fsm.currentState, fsm.errorState⟩,
    errEntryTrace g fsm.errorState)

/-- `getTransition`: scan the transition array in order; return the first
transition whose `eventType` equals the event's `type` and whose guard is
NULL or evaluates to true on the transition's condition and the event;
return NULL if the array is exhausted. -/
def getTransition (e : event) : List transition → Option transition
  | [] => none
  | t :: ts =>
    if t.eventType == e.type then
      match t.guard with
      | none => some t
      | some gd => if gd t.condition e then some t else getTransition e ts
    else getTransition e ts

/-- The entry-state descent loop of `stateM_handleEvent`:
`while (nextState->entryState) nextState = nextState->entryState;`.
Fuel bounds the number of links followed; `none` models non-termination on
a cyclic entry-state chain. -/
def followEntry (g : Graph) : Nat → Nat → Option Nat
  | 0, s =>
    match (g s).entryState with
    | none => some s
    | some _ => none
  | f + 1, s =>
    match (g s).entryState with
    | none => some s
    | some e' => followEntry g f e'

/-- The body of `stateM_handleEvent`'s loop after a transition has been
found (lines 69–115 of `stateMachine.c`): check the transition's next
state (NULL sends the machine to the error state), descend the entry-state
chain to the landing state, run exit / transition / entry actions with the
self-loop suppression of entry and exit, commit the state-pointer change
and classify the outcome. -/
def commit (g : Graph) (fsm : stateMachine) (e : event) (cs ef : Nat)
    (t : transition) : Option (stateMachine × RetVal × List CB) :=
  match t.nextState with
  | none =>
    let r := goToErrorState g fsm e
    some (r.1, RetVal.errorStateReached, r.2)
  | some ns0 =>
    match followEntry g ef ns0 with
    | none => none
    | some ns =>
      some (⟨some ns, some cs, fsm.errorState⟩,
        (if ns = cs then RetVal.stateLoopSelf
         else if some ns = fsm.errorState then RetVal.errorStateReached
         else if (g ns).transitions.length = 0 then RetVal.finalStateReached
         else RetVal.stateChanged),
        ((if ns ≠ cs ∧ ((g cs).exitAction).isSome then [CB.exitA cs] else [])
          ++ (match t.action with
              | none => []
              | some a => [CB.transA a])
          ++ (if ns ≠ cs ∧ ((g ns).entryAction).isSome then [CB.entryA ns]
              else [])))

/-- The `do { ... } while (nextState)` loop of `stateM_handleEvent`:
attempt transition resolution at `s`; on failure move to `s`'s parent (a
NULL parent ends the loop with "no state change" and no mutation); on
success run `commit`.  `cs` is the machine's current state for the whole
call; the fuel `pf` bounds the number of parent links followed. -/
def dispatchLoop (g : Graph) (fsm : stateMachine) (e : event) (cs ef : Nat) :
    Nat → Nat → Option (stateMachine × RetVal × List CB)
  | 0, _ => none
  | pf + 1, s =>
    match getTransition e (g s).transitions with
    | some t => commit g fsm e cs ef t
    | none =>
      match (g s).parentState with
      | none => some (fsm, RetVal.noStateChange, [])
      | some p => dispatchLoop g fsm e cs ef pf p

/-- `stateM_handleEvent`: argument check, NULL-current-state error path,
the `numTransitions == 0` early "no state change" return, then the
resolution/commit loop. -/
def stateM_handleEvent (g : Graph) (m : Option stateMachine)
    (e : Option event) (ef pf : Nat) :
    Option (Option stateMachine × RetVal × List CB) :=
  match m, e with
  | none, _ => some (none, RetVal.errArg, [])
  | some fsm, none => some (some fsm, RetVal.errArg, [])
  | some fsm, some ev =>
    match fsm.currentState with
    | none =>
      let r := goToErrorState g fsm ev
      some (some r.1, RetVal.errorStateReached, r.2)
    | some cs =>
      if (g cs).transitions.length = 0 then
        some (some fsm, RetVal.noStateChange, [])
      else
        (dispatchLoop g fsm ev cs ef pf cs).map
          (fun r => (some r.1, r.2.1, r.2.2))

/-- `stateM_currentState`: NULL for a NULL machine, else the current
state pointer. -/
def stateM_currentState (m : Option stateMachine) : Option Nat :=
  match m with
  | none => none
  | some fsm => fsm.currentState

/-- `stateM_previousState`: NULL for a NULL machine, else the previous
state pointer. -/
def stateM_previousState (m : Option stateMachine) : Option Nat :=
  match m with
  | none => none
  | some fsm => fsm.previousState

/-- `stateM_stopped`: true for a NULL machine, else
`currentState->numTransitions == 0`.  The C body dereferences
`currentState` without a NULL check, so a present machine whose current
state is absent has no defined result; that partiality is modelled as
`none`. -/
def stateM_stopped (g : Graph) (m : Option stateMachine) : Option Bool :=
  match m with
  | none => some true
  | some fsm =>
    match fsm.currentState with
    | none => none
    | some cs => some (decide ((g cs).transitions.length = 0))

/-- The search half of the dispatch loop, as a pure query: walk the parent
chain from `s`, returning the first ancestor (with its transition) at
which `getTransition` succeeds, `some none` if the chain ends with no
match, and `none` if the fuel runs out (cyclic chain). -/
def resolve (g : Graph) (e : event) : Nat → Nat → Option (Option (Nat × transition))
  | 0, _ => none
  | pf + 1, s =>
    match getTransition e (g s).transitions with
    | some t => some (some (s, t))
    | none =>
      match (g s).parentState with
      | none => some none
      | some p => resolve g e pf p

/-- Spec-side match predicate (§4.1 of the specification): a transition is
a candidate for an event iff its event-type discriminant equals the
event's type and its guard is absent or evaluates to true on the
transition's condition value and the event. -/
def specMatch (ev : event) (t : transition) : Bool :=
  (t.eventType == ev.type) &&
    (match t.guard with
     | none => true
     | some gd => gd t.condition ev)

/-! ### Concrete graphs used by witnesses and counterexamples -/

/-- Transition of state 0 on event 1 to composite state 3. -/
def TW0 : transition := ⟨1, 0, none, some 50, some 3⟩

/-- Self-loop transition of state 0 on event 2. -/
def TWself : transition := ⟨2, 0, none, some 51, some 0⟩

/-- Transition of parent state 9 on event 7 to final state 6. -/
def TW9 : transition := ⟨7, 0, none, some 90, some 6⟩

/-- Transition of state 2 on event 1 into the error state 8. -/
def TWerr : transition := ⟨1, 0, none, some 70, some 8⟩

/-- Misconfigured transition of state 7 on event 1 with no next state. -/
def TWbad : transition := ⟨1, 0, none, none, none⟩

/-- Guarded transition whose guard compares its condition value 5 with the
event payload. -/
def TWguarded : transition :=
  ⟨1, 5, some (fun c e => c == e.data), some 40, some 2⟩

/-- Unguarded transition on event 1, used after `TWguarded` in a list. -/
def TWplain : transition := ⟨1, 0, none, some 41, some 3⟩

/-- Witness graph: 0 is a child of 9 with a transition to composite 3 and
a self-loop; 3 → 4 → 5 is an entry-state chain; 9 handles event 7 into
final state 6; 2 has a transition into the error state 8; 7 has a
transition with no next state. -/
def gW : Graph := fun s =>
  match s with
  | 0 => ⟨some 9, none, [TW0, TWself], 10, some 100, some 101⟩
  | 2 => ⟨none, none, [TWerr], 20, some 200, some 201⟩
  | 3 => ⟨none, some 4, [⟨9, 0, none, none, some 0⟩], 30, some 300, some 301⟩
  | 4 => ⟨none, some 5, [⟨9, 0, none, none, some 0⟩], 40, some 400, some 401⟩
  | 5 => ⟨none, none, [⟨1, 0, none, none, some 0⟩], 50, some 500, some 501⟩
  | 6 => ⟨none, none, [], 60, some 600, some 601⟩
  | 7 => ⟨none, none, [TWbad], 70, some 700, some 701⟩
  | 8 => ⟨none, none, [], 80, some 800, none⟩
  | 9 => ⟨none, none, [TW9], 90, some 900, some 901⟩
  | _ => ⟨none, none, [], 0, none, none⟩

/-- Witness machine on `gW`: current state 0, error state 8. -/
def mW : stateMachine := ⟨some 0, none, some 8⟩

/-- Counterexample graph for C1: state 0 is a zero-transition child of
state 1, and state 1 has a transition on event 1. -/
def gC1 : Graph := fun s =>
  match s with
  | 0 => ⟨some 1, none, [], 0, none, none⟩
  | 1 => ⟨none, none, [⟨1, 0, none, none, some 2⟩], 0, none, none⟩
  | _ => ⟨none, none, [], 0, none, none⟩

/-- Counterexample machine for C1: current state 0 (zero transitions). -/
def mC1 : stateMachine := ⟨some 0, none, none⟩

/-- Counterexample graph for C6: state 0 transitions on event 1 straight
into state 2, the designated error state (zero transitions). -/
def gC6 : Graph := fun s =>
  match s with
  | 0 => ⟨none, none, [⟨1, 0, none, none, some 2⟩], 0, none, none⟩
  | _ => ⟨none, none, [], 0, none, none⟩

/-- Counterexample machine for C6: current state 0, error state 2. -/
def mC6 : stateMachine := ⟨some 0, none, some 2⟩

/-! ### Formalizations of the two claims the code falsifies -/

/-- Claim C1 as stated: for every machine with a present current state,
the call is the no-op "no state change" result (no callbacks, machine
unchanged) exactly when resolution, retried up the ancestor chain starting
at the current state, finds no match. -/
def claimC1 : Prop :=
  ∀ (g : Graph) (fsm : stateMachine) (ev : event) (cs ef pf : Nat)
    (res : Option (Nat × transition)),
    fsm.currentState = some cs →
    resolve g ev pf cs = some res →
    (res = none ↔
      stateM_handleEvent g (some fsm) (some ev) ef pf =
        some (some fsm, RetVal.noStateChange, []))

/-- Claim C6 (first half) as stated: whenever the matched transition lands
on a state different from the prior state that has zero transitions, the
result code is final-state-reached. -/
def claimC6 : Prop :=
  ∀ (g : Graph) (fsm : stateMachine) (ev : event) (cs ef pf s' : Nat)
    (t : transition) (ns0 ns : Nat),
    fsm.currentState = some cs →
    (g cs).transitions.length ≠ 0 →
    resolve g ev pf cs = some (some (s', t)) →
    t.nextState = some ns0 →
    followEntry g ef ns0 = some ns →
    ns ≠ cs →
    (g ns).transitions.length = 0 →
    ∃ (m' : stateMachine) (tr : List CB),
      stateM_handleEvent g (some fsm) (some ev) ef pf =
        some (some m', RetVal.finalStateReached, tr)

/-! ### Helper lemmas -/

/-- The dispatch loop is the pure search `resolve` followed by `commit`:
once `getTransition` succeeds, every branch of the C loop body returns, so
the loop factors into search-then-commit exactly, fuel for fuel. -/
theorem dispatchLoop_eq_resolve (g : Graph) (fsm : stateMachine) (e : event)
    (cs ef : Nat) : ∀ pf s,
    dispatchLoop g fsm e cs ef pf s =
      match resolve g e pf s with
      | none => none
      | some none => some (fsm, RetVal.noStateChange, [])
      | some (some (_, t)) => commit g fsm e cs ef t := by
  intro pf
  induction pf with
  | zero => intro s; rfl
  | succ pf ih =>
    intro s
    simp only [dispatchLoop, resolve]
    cases getTransition e (g s).transitions with
    | some t => rfl
    | none =>
      cases (g s).parentState with
      | none => rfl
      | some p => exact ih p

/-- `stateM_handleEvent` on a present machine and event whose current
state has at least one transition: the result is the bubbling search
`resolve` followed by `commit`. -/
theorem handleEvent_eq_resolve (g : Graph) (fsm : stateMachine) (ev : event)
    (cs ef pf : Nat) (hcs : fsm.currentState = some cs)
    (hne : (g cs).transitions.length ≠ 0) :
    stateM_handleEvent g (some fsm) (some ev) ef pf =
      match resolve g ev pf cs with
      | none => none
      | some none => some (some fsm, RetVal.noStateChange, [])
      | some (some (_, t)) =>
        (commit g fsm ev cs ef t).map (fun r => (some r.1, r.2.1, r.2.2)) := by
  simp only [stateM_handleEvent, hcs, if_neg hne,
    dispatchLoop_eq_resolve g fsm ev cs ef pf cs]
  cases resolve g ev pf cs with
  | none => rfl
  | some r =>
    cases r with
    | none => rfl
    | some st => rfl

/-- `followEntry` lands only on a state with no entry-state, reached from
the start state by a chain of entry-state links. -/
theorem followEntry_chain (g : Graph) : ∀ f s ns,
    followEntry g f s = some ns →
    Relation.ReflTransGen (fun a b => (g a).entryState = some b) s ns ∧
      (g ns).entryState = none := by
  intro f
  induction f with
  | zero =>
    intro s ns h
    simp only [followEntry] at h
    cases he : (g s).entryState with
    | none =>
      rw [he] at h
      cases h
      exact ⟨Relation.ReflTransGen.refl, he⟩
    | some e' => rw [he] at h; cases h
  | succ f ih =>
    intro s ns h
    simp only [followEntry] at h
    cases he : (g s).entryState with
    | none =>
      rw [he] at h
      cases h
      exact ⟨Relation.ReflTransGen.refl, he⟩
    | some e' =>
      rw [he] at h
      obtain ⟨hchain, hend⟩ := ih e' ns h
      exact ⟨Relation.ReflTransGen.head he hchain, hend⟩

/-- A state with no entry-state is its own landing state, for any fuel. -/
theorem followEntry_self (g : Graph) (f s : Nat)
    (h : (g s).entryState = none) : followEntry g f s = some s := by
  cases f with
  | zero => simp only [followEntry, h]
  | succ f => simp only [followEntry, h]

/-- `getTransition` is the first element of the transition list satisfying
the spec's match predicate (event type equal, guard absent or true). -/
theorem getTransition_eq_find (ev : event) : ∀ ts : List transition,
    getTransition ev ts = ts.find? (specMatch ev) := by
  intro ts
  induction ts with
  | nil => rfl
  | cons t ts ih =>
    simp only [getTransition, List.find?, specMatch]
    cases hb : (t.eventType == ev.type) with
    | false => simpa [hb] using ih
    | true =>
      cases hg : t.guard with
      | none => simp [hb, hg]
      | some gd =>
        cases hgd : gd t.condition ev with
        | false => simpa [hb, hg, hgd] using ih
        | true => simp [hb, hg, hgd]

/-- A transition returned by the bubbling search satisfies the spec's
match predicate. -/
theorem resolve_specMatch (g : Graph) (ev : event) : ∀ pf s s' t,
    resolve g ev pf s = some (some (s', t)) → specMatch ev t = true := by
  intro pf
  induction pf with
  | zero => intro s s' t h; cases h
  | succ pf ih =>
    intro s s' t h
    simp only [resolve] at h
    cases hg : getTransition ev (g s).transitions with
    | some t' =>
      rw [hg] at h
      cases h
      have := getTransition_eq_find ev (g s).transitions
      rw [hg] at this
      exact (List.find?_some this.symm)
    | none =>
      rw [hg] at h
      cases hp : (g s).parentState with
      | none => rw [hp] at h; cases h
      | some p => rw [hp] at h; exact ih p s' t h

/-- Every transition-action entry in a `commit` trace is the action of the
committed transition. -/
theorem commit_transA (g : Graph) (fsm : stateMachine) (ev : event)
    (cs ef : Nat) (t : transition) (m' : stateMachine) (r : RetVal)
    (tr : List CB) (a : Nat) (hc : commit g fsm ev cs ef t = some (m', r, tr))
    (ha : CB.transA a ∈ tr) : t.action = some a := by
  cases hn : t.nextState with
  | none =>
    simp only [commit, hn, goToErrorState, errEntryTrace] at hc
    cases hc
    cases he : fsm.errorState with
    | none => simp only [he] at ha; cases ha
    | some s =>
      simp only [he] at ha
      cases hea : (g s).entryAction with
      | none => simp only [hea] at ha; cases ha
      | some x => simp only [hea] at ha; simp at ha
  | some ns0 =>
    cases hf : followEntry g ef ns0 with
    | none =>
      simp only [commit, hn, hf] at hc
      exact Option.noConfusion hc
    | some ns =>
      simp only [commit, hn, hf] at hc
      cases hc
      simp only [List.mem_append] at ha
      rcases ha with (ha | ha) | ha
      · by_cases hx : ns ≠ cs ∧ ((g cs).exitAction).isSome
        · rw [if_pos hx] at ha; simp at ha
        · rw [if_neg hx] at ha; cases ha
      · cases hact : t.action with
        | none => simp only [hact] at ha; cases ha
        | some b =>
          simp only [hact, List.mem_singleton] at ha
          cases ha
          rfl
      · by_cases hx : ns ≠ cs ∧ ((g ns).entryAction).isSome
        · rw [if_pos hx] at ha; simp at ha
        · rw [if_neg hx] at ha; cases ha

/-! ### Claim theorems -/

/-- C1 (counterexample): the claim as stated is false.  On `gC1`/`mC1`
the current state (state 0) has zero transitions while its parent
(state 1) has a matching transition for event 1, yet `stateM_handleEvent`
returns the no-op "no state change" result without consulting the parent:
the `numTransitions == 0` early return short-circuits ancestor bubbling. -/
theorem C1_counterexample : ¬ claimC1 := by
  intro h
  have h2 := (h gC1 mC1 ⟨1, 0⟩ 0 1 2
      (some (1, ⟨1, 0, none, none, some 2⟩)) rfl rfl).mpr rfl
  exact Option.noConfusion h2

/-- C1 (amended): when the current state has at least one transition,
`stateM_handleEvent` resolves the transition by bubbling up the ancestor
chain (`resolve`), and if no ancestor matches the call is a no-op
returning the no-state-change code with no callback fired and the machine
unchanged; when a match is found the matched transition is committed.
However, when the current state has zero transitions the call returns
no-state-change immediately, without attempting resolution at any
ancestor, even if an ancestor has a matching transition. -/
theorem C1_bubbling (g : Graph) (fsm : stateMachine) (ev : event)
    (cs ef pf : Nat) (hcs : fsm.currentState = some cs) :
    ((g cs).transitions.length = 0 →
      stateM_handleEvent g (some fsm) (some ev) ef pf =
        some (some fsm, RetVal.noStateChange, []))
    ∧ ((g cs).transitions.length ≠ 0 → resolve g ev pf cs = some none →
      stateM_handleEvent g (some fsm) (some ev) ef pf =
        some (some fsm, RetVal.noStateChange, []))
    ∧ ((g cs).transitions.length ≠ 0 → ∀ (s' : Nat) (t : transition),
      resolve g ev pf cs = some (some (s', t)) →
      stateM_handleEvent g (some fsm) (some ev) ef pf =
        (commit g fsm ev cs ef t).map (fun r => (some r.1, r.2.1, r.2.2))) := by
  refine ⟨?_, ?_, ?_⟩
  · intro hz
    simp only [stateM_handleEvent, hcs, if_pos hz]
  · intro hne hres
    rw [handleEvent_eq_resolve g fsm ev cs ef pf hcs hne, hres]
  · intro hne s' t hres
    rw [handleEvent_eq_resolve g fsm ev cs ef pf hcs hne, hres]

/-- C1 (witness): the three clauses of the amended claim at concrete
inputs on the witness graph: a zero-transition current state is a no-op;
an event unmatched along the whole ancestor chain is a no-op; a match
found by bubbling is committed. -/
theorem C1_witness :
    stateM_handleEvent gW (some ⟨some 6, none, some 8⟩) (some ⟨1, 0⟩) 1 1 =
      some (some ⟨some 6, none, some 8⟩, RetVal.noStateChange, [])
    ∧ stateM_handleEvent gW (some mW) (some ⟨99, 0⟩) 1 2 =
      some (some mW, RetVal.noStateChange, [])
    ∧ stateM_handleEvent gW (some mW) (some ⟨1, 0⟩) 2 1 =
      (commit gW mW ⟨1, 0⟩ 0 2 TW0).map (fun r => (some r.1, r.2.1, r.2.2)) :=
  ⟨(C1_bubbling gW ⟨some 6, none, some 8⟩ ⟨1, 0⟩ 6 1 1 rfl).1 rfl,
   (C1_bubbling gW mW ⟨99, 0⟩ 0 1 2 rfl).2.1 (by decide) rfl,
   (C1_bubbling gW mW ⟨1, 0⟩ 0 2 1 rfl).2.2 (by decide) 0 TW0 rfl⟩

/-- C2: transition resolution scans the state's transitions in array
order and selects the first one whose event type equals the event's type
and whose guard is absent or true on the transition's condition and the
event (`getTransition` equals `List.find?` of the spec's match
predicate); when the sequence is exhausted the result is no-match; any
transition chosen by the bubbling search satisfies the match predicate
(so a guard-false transition never fires); and every transition-action
callback recorded in a commit trace belongs to the committed transition,
so no callback of a rejected transition ever executes. -/
theorem C2_transition_resolution (ev : event) (ts : List transition) :
    getTransition ev ts = ts.find? (specMatch ev)
    ∧ (getTransition ev ts = none ↔ ∀ t ∈ ts, ¬ specMatch ev t)
    ∧ (∀ t, getTransition ev ts = some t → specMatch ev t = true)
    ∧ (∀ (g : Graph) (pf s s' : Nat) (t : transition),
        resolve g ev pf s = some (some (s', t)) → specMatch ev t = true)
    ∧ (∀ (g : Graph) (fsm : stateMachine) (cs ef : Nat) (t : transition)
        (m' : stateMachine) (r : RetVal) (tr : List CB) (a : Nat),
        commit g fsm ev cs ef t = some (m', r, tr) → CB.transA a ∈ tr →
        t.action = some a) := by
  refine ⟨getTransition_eq_find ev ts, ?_, ?_, ?_, ?_⟩
  · rw [getTransition_eq_find ev ts]
    exact List.find?_eq_none
  · intro t h
    rw [getTransition_eq_find ev ts] at h
    exact List.find?_some h
  · intro g pf s s' t h
    exact resolve_specMatch g ev pf s s' t h
  · intro g fsm cs ef t m' r tr a hc ha
    exact commit_transA g fsm ev cs ef t m' r tr a hc ha

/-- C2 (witness): for event 1 against the list [TWguarded, TWplain], the
guarded transition's guard (condition 5 vs payload 0) is false, so
resolution skips it and returns the unguarded second transition, which
satisfies the match predicate. -/
theorem C2_witness :
    getTransition ⟨1, 0⟩ [TWguarded, TWplain] =
      [TWguarded, TWplain].find? (specMatch ⟨1, 0⟩)
    ∧ getTransition ⟨1, 0⟩ [TWguarded, TWplain] = some TWplain
    ∧ specMatch ⟨1, 0⟩ TWplain = true :=
  ⟨(C2_transition_resolution ⟨1, 0⟩ [TWguarded, TWplain]).1, rfl,
   (C2_transition_resolution ⟨1, 0⟩ [TWguarded, TWplain]).2.2.1 TWplain rfl⟩

/-- C3: when the matched transition's landing state (after entry-state
descent) equals the state being left, `stateM_handleEvent` runs the
transition's action callback (if present) and nothing else — no exit and
no entry action — and returns the state-looped-to-itself result code. -/
theorem C3_self_transition (g : Graph) (fsm : stateMachine) (ev : event)
    (cs ef pf s' : Nat) (t : transition) (ns0 : Nat)
    (hcs : fsm.currentState = some cs)
    (hne : (g cs).transitions.length ≠ 0)
    (hres : resolve g ev pf cs = some (some (s', t)))
    (hnext : t.nextState = some ns0)
    (hfe : followEntry g ef ns0 = some cs) :
    stateM_handleEvent g (some fsm) (some ev) ef pf =
      some (some ⟨some cs, some cs, fsm.errorState⟩, RetVal.stateLoopSelf,
        match t.action with
        | none => []
        | some a => [CB.transA a]) := by
  rw [handleEvent_eq_resolve g fsm ev cs ef pf hcs hne, hres]
  simp only [commit, hnext, hfe, Option.map, ne_eq, not_true_eq_false,
    false_and, if_false, eq_self_iff_true, if_true, List.nil_append,
    List.append_nil]

/-- C3 (witness): from state 0 of the witness graph, event 2 matches the
self-loop transition `TWself`; the call returns state-loop-self and the
trace holds exactly the transition action, no exit/entry action. -/
theorem C3_witness :
    stateM_handleEvent gW (some mW) (some ⟨2, 0⟩) 1 1 =
      some (some ⟨some 0, some 0, some 8⟩, RetVal.stateLoopSelf,
        [CB.transA 51]) :=
  C3_self_transition gW mW ⟨2, 0⟩ 0 1 1 0 TWself 0 rfl (by decide) rfl rfl rfl

/-- C4: the landing state of a matched transition is obtained by
following entry-state links transitively from the declared next state
until a state with no entry-state is reached; the machine's current state
becomes that landing state, and the only entry action that can appear in
the trace is the landing state's (no intermediate composite's entry
action); it does appear whenever the landing state is actually entered
and declares an entry action. -/
theorem C4_entry_redirection (g : Graph) (fsm : stateMachine) (ev : event)
    (cs ef pf s' : Nat) (t : transition) (ns0 ns : Nat)
    (hcs : fsm.currentState = some cs)
    (hne : (g cs).transitions.length ≠ 0)
    (hres : resolve g ev pf cs = some (some (s', t)))
    (hnext : t.nextState = some ns0)
    (hfe : followEntry g ef ns0 = some ns) :
    Relation.ReflTransGen (fun a b => (g a).entryState = some b) ns0 ns
    ∧ (g ns).entryState = none
    ∧ stateM_handleEvent g (some fsm) (some ev) ef pf =
        some (some ⟨some ns, some cs, fsm.errorState⟩,
          (if ns = cs then RetVal.stateLoopSelf
           else if some ns = fsm.errorState then RetVal.errorStateReached
           else if (g ns).transitions.length = 0 then RetVal.finalStateReached
           else RetVal.stateChanged),
          ((if ns ≠ cs ∧ ((g cs).exitAction).isSome then [CB.exitA cs] else [])
            ++ (match t.action with
                | none => []
                | some a => [CB.transA a])
            ++ (if ns ≠ cs ∧ ((g ns).entryAction).isSome then [CB.entryA ns]
                else [])))
    ∧ (∀ x tr, tr = ((if ns ≠ cs ∧ ((g cs).exitAction).isSome then [CB.exitA cs] else [])
            ++ (match t.action with
                | none => []
                | some a => [CB.transA a])
            ++ (if ns ≠ cs ∧ ((g ns).entryAction).isSome then [CB.entryA ns]
                else [])) → CB.entryA x ∈ tr → x = ns) := by
  obtain ⟨hchain, hend⟩ := followEntry_chain g ef ns0 ns hfe
  refine ⟨hchain, hend, ?_, ?_⟩
  · rw [handleEvent_eq_resolve g fsm ev cs ef pf hcs hne, hres]
    simp only [commit, hnext, hfe, Option.map]
  · intro x tr htr hx
    subst htr
    simp only [List.mem_append] at hx
    rcases hx with (hx | hx) | hx
    · by_cases hc : ns ≠ cs ∧ ((g cs).exitAction).isSome
      · rw [if_pos hc] at hx; simp at hx
      · rw [if_neg hc] at hx; cases hx
    · cases ha : t.action with
      | none => simp only [ha] at hx; cases hx
      | some a => simp only [ha] at hx; simp at hx
    · by_cases hc : ns ≠ cs ∧ ((g ns).entryAction).isSome
      · rw [if_pos hc] at hx
        simp only [List.mem_singleton] at hx
        cases hx
        rfl
      · rw [if_neg hc] at hx; cases hx

/-- C4 (witness): from state 0, event 1 matches `TW0` whose next state is
composite 3 with entry-state chain 3 → 4 → 5; the machine lands on 5, the
trace holds exit of 0, the transition action, and only state 5's entry
action (not 3's or 4's), and the result is state-changed. -/
theorem C4_witness :
    Relation.ReflTransGen (fun a b => (gW a).entryState = some b) 3 5
    ∧ (gW 5).entryState = none
    ∧ stateM_handleEvent gW (some mW) (some ⟨1, 0⟩) 2 1 =
        some (some ⟨some 5, some 0, some 8⟩, RetVal.stateChanged,
          [CB.exitA 0, CB.transA 50, CB.entryA 5]) := by
  have h := C4_entry_redirection gW mW ⟨1, 0⟩ 0 2 1 0 TW0 3 5 rfl
    (by decide) rfl rfl rfl
  exact ⟨h.1, h.2.1, by simpa using h.2.2.1⟩

/-- C5: if the current state is absent at call time, or the chosen
transition declares no next state, the machine's current state becomes
the designated error state, the error state's entry action (if present)
is invoked with the event of the call, and the error-state-reached code
is returned. -/
theorem C5_error_fallback (g : Graph) (fsm : stateMachine) (ev : event)
    (ef pf : Nat) :
    (fsm.currentState = none →
      stateM_handleEvent g (some fsm) (some ev) ef pf =
        some (some ⟨fsm.errorState, none, fsm.errorState⟩,
          RetVal.errorStateReached, errEntryTrace g fsm.errorState))
    ∧ (∀ (cs s' : Nat) (t : transition),
        fsm.currentState = some cs →
        (g cs).transitions.length ≠ 0 →
        resolve g ev pf cs = some (some (s', t)) →
        t.nextState = none →
        stateM_handleEvent g (some fsm) (some ev) ef pf =
          some (some ⟨fsm.errorState, some cs, fsm.errorState⟩,
            RetVal.errorStateReached, errEntryTrace g fsm.errorState)) := by
  constructor
  · intro h
    simp only [stateM_handleEvent, h, goToErrorState]
  · intro cs s' t hcs hne hres hnext
    rw [handleEvent_eq_resolve g fsm ev cs ef pf hcs hne, hres]
    simp only [commit, hnext, goToErrorState, hcs, Option.map]

/-- C5 (witness): both failure modes on the witness graph: a machine with
an absent current state, and state 7's transition `TWbad` with no next
state; in both cases the machine enters error state 8, state 8's entry
action fires, and the result is error-state-reached. -/
theorem C5_witness :
    stateM_handleEvent gW (some ⟨none, none, some 8⟩) (some ⟨1, 0⟩) 1 1 =
      some (some ⟨some 8, none, some 8⟩, RetVal.errorStateReached,
        [CB.entryA 8])
    ∧ stateM_handleEvent gW (some ⟨some 7, none, some 8⟩) (some ⟨1, 0⟩) 1 1 =
      some (some ⟨some 8, some 7, some 8⟩, RetVal.errorStateReached,
        [CB.entryA 8]) :=
  ⟨(C5_error_fallback gW ⟨none, none, some 8⟩ ⟨1, 0⟩ 1 1).1 rfl,
   (C5_error_fallback gW ⟨some 7, none, some 8⟩ ⟨1, 0⟩ 1 1).2 7 7 TWbad rfl
     (by decide) rfl rfl⟩

/-- C6 (counterexample): the claim as stated is false.  On `gC6`/`mC6`,
state 0's transition on event 1 lands on state 2, which differs from the
prior state and has zero transitions, yet the result is
error-state-reached, not final-state-reached, because state 2 is the
designated error state and the engine checks that first. -/
theorem C6_counterexample : ¬ claimC6 := by
  intro h
  obtain ⟨m', tr, hEq⟩ := h gC6 mC6 ⟨1, 0⟩ 0 1 1 0
    ⟨1, 0, none, none, some 2⟩ 2 2 rfl (by decide) rfl rfl rfl
    (by decide) rfl
  rw [show stateM_handleEvent gC6 (some mC6) (some ⟨1, 0⟩) 1 1 =
      some (some ⟨some 2, some 0, some 2⟩, RetVal.errorStateReached, [])
    from rfl] at hEq
  simp at hEq

/-- C6 (amended): when a matched transition lands on a state that differs
from the prior state, differs from the designated error state, and has
zero transitions, `stateM_handleEvent` returns final-state-reached (a
landing on the error state returns error-state-reached instead);
thereafter the machine is halted: any further call on that machine leaves
it unchanged and returns no-state-change. -/
theorem C6_final_state (g : Graph) (fsm : stateMachine) (ev : event)
    (cs ef pf s' : Nat) (t : transition) (ns0 ns : Nat)
    (hcs : fsm.currentState = some cs)
    (hne : (g cs).transitions.length ≠ 0)
    (hres : resolve g ev pf cs = some (some (s', t)))
    (hnext : t.nextState = some ns0)
    (hfe : followEntry g ef ns0 = some ns)
    (hdiff : ns ≠ cs)
    (hnerr : some ns ≠ fsm.errorState)
    (hfin : (g ns).transitions.length = 0) :
    stateM_handleEvent g (some fsm) (some ev) ef pf =
      some (some ⟨some ns, some cs, fsm.errorState⟩,
        RetVal.finalStateReached,
        ((if ((g cs).exitAction).isSome then [CB.exitA cs] else [])
          ++ (match t.action with
              | none => []
              | some a => [CB.transA a])
          ++ (if ((g ns).entryAction).isSome then [CB.entryA ns] else [])))
    ∧ (∀ (ev2 : event) (ef2 pf2 : Nat),
        stateM_handleEvent g (some ⟨some ns, some cs, fsm.errorState⟩)
            (some ev2) ef2 pf2 =
          some (some ⟨some ns, some cs, fsm.errorState⟩,
            RetVal.noStateChange, [])) := by
  constructor
  · rw [handleEvent_eq_resolve g fsm ev cs ef pf hcs hne, hres]
    simp only [commit, hnext, hfe, Option.map, if_neg hdiff, if_neg hnerr,
      if_pos hfin, ne_eq, hdiff, not_false_eq_true, true_and, if_false]
  · intro ev2 ef2 pf2
    simp only [stateM_handleEvent, if_pos hfin]

/-- C6 (witness): from state 0 of the witness graph, event 7 bubbles to
parent 9 whose transition lands on final state 6 (not the error state 8):
the result is final-state-reached, and a subsequent call on the halted
machine is a no-op returning no-state-change. -/
theorem C6_witness :
    stateM_handleEvent gW (some mW) (some ⟨7, 0⟩) 1 2 =
      some (some ⟨some 6, some 0, some 8⟩, RetVal.finalStateReached,
        [CB.exitA 0, CB.transA 90, CB.entryA 6])
    ∧ stateM_handleEvent gW (some ⟨some 6, some 0, some 8⟩) (some ⟨3, 3⟩) 1 1 =
      some (some ⟨some 6, some 0, some 8⟩, RetVal.noStateChange, []) := by
  have h := C6_final_state gW mW ⟨7, 0⟩ 0 1 2 9 TW9 6 6 rfl (by decide)
    rfl rfl rfl (by decide) (by decide) rfl
  exact ⟨by simpa using h.1, h.2 ⟨3, 3⟩ 1 1⟩

/-- C7: `stateM_stopped` returns true exactly when the machine reference
is absent or the (present) current state has zero transitions, and
returns false exactly when the current state is present with at least one
transition; in particular it is true whenever the current state is any
zero-transition state. -/
theorem C7_stopped (g : Graph) (m : Option stateMachine) :
    (stateM_stopped g m = some true ↔
      (m = none ∨ ∃ (fsm : stateMachine) (cs : Nat), m = some fsm ∧
        fsm.currentState = some cs ∧ (g cs).transitions.length = 0))
    ∧ (stateM_stopped g m = some false ↔
      (∃ (fsm : stateMachine) (cs : Nat), m = some fsm ∧
        fsm.currentState = some cs ∧ (g cs).transitions.length ≠ 0)) := by
  cases m with
  | none => simp [stateM_stopped]
  | some fsm =>
    cases hcs : fsm.currentState with
    | none => simp [stateM_stopped, hcs]
    | some cs =>
      constructor
      · simp only [stateM_stopped, hcs]
        constructor
        · intro h
          refine Or.inr ⟨fsm, cs, rfl, hcs, ?_⟩
          simpa using h
        · intro h
          rcases h with h | ⟨fsm', cs', hm, hcs', hz⟩
          · exact Option.noConfusion h
          · cases hm
            rw [hcs] at hcs'
            cases hcs'
            simp [hz]
      · simp only [stateM_stopped, hcs]
        constructor
        · intro h
          refine ⟨fsm, cs, rfl, hcs, ?_⟩
          simpa using h
        · intro h
          rcases h with ⟨fsm', cs', hm, hcs', hz⟩
          cases hm
          rw [hcs] at hcs'
          cases hcs'
          simp [hz]

/-- C7 (witness): on the witness graph, a machine whose current state is
final state 6 (zero transitions) is stopped, and a machine at state 0
(two transitions) is not. -/
theorem C7_witness :
    stateM_stopped gW (some ⟨some 6, none, some 8⟩) = some true
    ∧ stateM_stopped gW (some mW) = some false :=
  ⟨(C7_stopped gW (some ⟨some 6, none, some 8⟩)).1.mpr
      (Or.inr ⟨⟨some 6, none, some 8⟩, 6, rfl, rfl, rfl⟩),
   (C7_stopped gW (some mW)).2.mpr ⟨mW, 0, rfl, rfl, by decide⟩⟩

/-- C8: `stateM_init` on a present machine sets the current state to the
initial state, the error state to the given error state, resets the
previous state to absent, and invokes no callback (the trace is empty);
a repeated call with the same arguments reproduces exactly the machine
the first call produced. -/
theorem C8_init (m : Option stateMachine) (fsm : stateMachine)
    (ini err : Option Nat) (h : m = some fsm) :
    stateM_init m ini err = (some ⟨ini, none, err⟩, [])
    ∧ stateM_init (stateM_init m ini err).1 ini err = stateM_init m ini err := by
  subst h
  exact ⟨rfl, rfl⟩

/-- C8 (witness): re-initializing the witness machine after it has moved
(current 6, previous 0) resets it to initial state 0 with no previous
state and fires no action, idempotently. -/
theorem C8_witness :
    stateM_init (some ⟨some 6, some 0, some 8⟩) (some 0) (some 8) =
      (some ⟨some 0, none, some 8⟩, [])
    ∧ stateM_init (stateM_init (some ⟨some 6, some 0, some 8⟩) (some 0)
        (some 8)).1 (some 0) (some 8) =
      stateM_init (some ⟨some 6, some 0, some 8⟩) (some 0) (some 8) :=
  C8_init (some ⟨some 6, some 0, some 8⟩) ⟨some 6, some 0, some 8⟩
    (some 0) (some 8) rfl

/-- C9: when a matched transition's landing state is the designated error
state (and differs from the state being left), the engine performs the
normal commit — exit action of the left state, transition action, entry
action of the error state, each when present — and returns
error-state-reached, not state-changed or final-state-reached. -/
theorem C9_transition_to_error (g : Graph) (fsm : stateMachine) (ev : event)
    (cs ef pf s' : Nat) (t : transition) (ns0 ns : Nat)
    (hcs : fsm.currentState = some cs)
    (hne : (g cs).transitions.length ≠ 0)
    (hres : resolve g ev pf cs = some (some (s', t)))
    (hnext : t.nextState = some ns0)
    (hfe : followEntry g ef ns0 = some ns)
    (hdiff : ns ≠ cs)
    (herr : some ns = fsm.errorState) :
    stateM_handleEvent g (some fsm) (some ev) ef pf =
      some (some ⟨some ns, some cs, fsm.errorState⟩,
        RetVal.errorStateReached,
        ((if ((g cs).exitAction).isSome then [CB.exitA cs] else [])
          ++ (match t.action with
              | none => []
              | some a => [CB.transA a])
          ++ (if ((g ns).entryAction).isSome then [CB.entryA ns] else []))) := by
  rw [handleEvent_eq_resolve g fsm ev cs ef pf hcs hne, hres]
  simp only [commit, hnext, hfe, Option.map, if_neg hdiff, if_pos herr,
    ne_eq, hdiff, not_false_eq_true, true_and, if_false]

/-- C9 (witness): from state 2 of the witness graph, event 1 matches
`TWerr` landing on error state 8: exit of 2, the transition action and
state 8's entry action all fire, and the result is error-state-reached. -/
theorem C9_witness :
    stateM_handleEvent gW (some ⟨some 2, none, some 8⟩) (some ⟨1, 0⟩) 1 1 =
      some (some ⟨some 8, some 2, some 8⟩, RetVal.errorStateReached,
        [CB.exitA 2, CB.transA 70, CB.entryA 8]) := by
  have h := C9_transition_to_error gW ⟨some 2, none, some 8⟩ ⟨1, 0⟩ 2 1 1 2
    TWerr 8 8 rfl (by decide) rfl rfl rfl (by decide) rfl
  simpa using h

/-- C10: `stateM_stopped` dereferences the current state without a NULL
check, so it has a defined result exactly when the machine reference is
absent or the current state is present; for a present machine whose
current state is absent the embedding yields no result. -/
theorem C10_stopped_totality (g : Graph) :
    (∀ fsm : stateMachine, fsm.currentState = none →
      stateM_stopped g (some fsm) = none)
    ∧ (∀ m : Option stateMachine,
        (stateM_stopped g m).isSome = true ↔
          (m = none ∨ ∃ fsm : stateMachine, m = some fsm ∧
            fsm.currentState ≠ none)) := by
  constructor
  · intro fsm h
    simp [stateM_stopped, h]
  · intro m
    cases m with
    | none => simp [stateM_stopped]
    | some fsm =>
      cases hcs : fsm.currentState with
      | none => simp [stateM_stopped, hcs]
      | some cs => simp [stateM_stopped, hcs]

/-- C10 (witness): a freshly initialized machine with an absent initial
state has no defined `stateM_stopped` result. -/
theorem C10_witness :
    stateM_stopped gW (some ⟨none, none, some 8⟩) = none :=
  (C10_stopped_totality gW).1 ⟨none, none, some 8⟩ rfl

end StateMachine
